import Mathlib

/-!
Verification development for the bulk email sender's core
(`src/core/email_sender.py`).

The shallow embedding below translates the worker `EmailSenderWorker`:
pure helpers (`is_valid_email`, `html_to_plain_text`) become Lean
functions; the Qt signal emissions become an explicit event trace
(`Event`); the external collaborators (the `resend` provider, wall-clock
time, `random.uniform` jitter, and the cross-thread `_stop_requested`
flag) become an explicit environment `Env`: the provider is a total
function returning `Except` (an exception raised by the provider call is
the `.error` case of the `try/except` at lines 179-192), the stop flag
is a function of a poll counter (each read of `self._stop_requested` is
one poll), and `random.uniform(-0.5, 0.5)` is an arbitrary rational per
iteration.  Floating point arithmetic on the delay is modelled with
exact rationals.  BeautifulSoup's `html.parser` + `get_text("\n",
strip=True)` (an external library call) is modelled per its documented
behaviour, which the spec restates in section 4.2: tags are tokenised,
`script`/`style` subtrees are dropped, the remaining text fragments are
each stripped, empty ones discarded, and the rest joined with a newline.
-/

namespace BulkEmail

/-! ### Email validator (`is_valid_email`, line 29-33)

The source matches the trimmed address against the anchored regex
`^[a-zA-Z0-9._%+\-]+@[a-zA-Z0-9.\-]+\.[a-zA-Z]{2,}$` with `re.match`.
Since the local-part class and the domain class both exclude the
character at `@`, and the TLD class excludes the dot, the regex matches
exactly the strings `local ++ "@" ++ domain ++ "." ++ tld` where the
split is at the first `@` and the last `.`; the matcher below decides
precisely that language. -/

def isLocalChar (c : Char) : Bool :=
  c.isAlpha || c.isDigit || c == '.' || c == '_' || c == '%' || c == '+' || c == '-'

def isDomainChar (c : Char) : Bool :=
  c.isAlpha || c.isDigit || c == '.' || c == '-'

/-- Strip leading and trailing whitespace of a character list
(`str.strip`). -/
def trimChars (cs : List Char) : List Char :=
  ((cs.dropWhile Char.isWhitespace).reverse.dropWhile Char.isWhitespace).reverse

/-- `str.strip` on strings (leading/trailing whitespace removed). -/
def strip (s : String) : String :=
  List.asString (trimChars s.toList)

/-- Split a list at the first occurrence of `c`: returns the part
before and the part after (neither containing that occurrence). -/
def splitAtFirst (c : Char) : List Char → Option (List Char × List Char)
  | [] => none
  | x :: xs =>
    if x = c then some ([], xs)
    else (splitAtFirst c xs).map (fun p => (x :: p.1, p.2))

/-- Split a list at the last occurrence of `c`. -/
def splitAtLast (c : Char) (cs : List Char) : Option (List Char × List Char) :=
  (splitAtFirst c cs.reverse).map (fun p => (p.2.reverse, p.1.reverse))

/-- The language of the anchored email regex, decided on the character
list of the (already trimmed) address. -/
def emailMatch (cs : List Char) : Bool :=
  match splitAtFirst '@' cs with
  | none => false
  | some (l, rest) =>
    match splitAtLast '.' rest with
    | none => false
    | some (d, t) =>
      !l.isEmpty && l.all isLocalChar && !d.isEmpty && d.all isDomainChar &&
        t.all Char.isAlpha && decide (2 ≤ t.length)

/-- `is_valid_email` (line 32-33): match the trimmed input. -/
def is_valid_email (email : String) : Bool :=
  emailMatch (strip email).toList

/-! ### Plain text renderer (`html_to_plain_text`, lines 36-47) -/

/-- A token of the flat HTML scan: a text fragment, or a tag with its
(lower-cased) name and whether it is a closing tag. -/
inductive Tok
  | text (s : List Char)
  | tag (name : List Char) (closing : Bool)
deriving DecidableEq, Repr

/-- Parse the inside of a `<...>` construct into a tag token. -/
def parseTag (inside : List Char) : Tok :=
  match inside with
  | '/' :: rest => Tok.tag ((rest.takeWhile Char.isAlpha).map Char.toLower) true
  | _ => Tok.tag ((inside.takeWhile Char.isAlpha).map Char.toLower) false

/-- Emit a pending (reversed) text accumulator as a text token, when
non-empty. -/
def flushText (acc : List Char) : List Tok :=
  if acc = [] then [] else [Tok.text acc.reverse]

/-- Character-by-character scan: `inTag` says whether we are between
`<` and `>`; `acc` holds the pending characters in reverse.  An
unterminated `<` swallows the remainder, as the parser treats it as an
unfinished construct. -/
def tokenizeAux : List Char → Bool → List Char → List Tok
  | [], true, _ => []
  | [], false, acc => flushText acc
  | c :: rest, true, acc =>
      if c = '>' then parseTag acc.reverse :: tokenizeAux rest false []
      else tokenizeAux rest true (c :: acc)
  | c :: rest, false, acc =>
      if c = '<' then flushText acc ++ tokenizeAux rest true []
      else tokenizeAux rest false (c :: acc)

/-- Flat HTML tokeniser: split the input into tags and text fragments
(model of `BeautifulSoup(html, "html.parser")` for plain tag soup). -/
def tokenize (cs : List Char) : List Tok :=
  tokenizeAux cs false []

/-- Collect the visible text fragments, dropping everything between a
`script`/`style` opening tag and its matching close (model of
`tag.decompose()` on lines 41-42 followed by the string collection of
`get_text`).  The second argument holds the name of the tag currently
being skipped, if any. -/
def extractFrags : List Tok → Option (List Char) → List (List Char)
  | [], _ => []
  | Tok.text s :: rest, none => s :: extractFrags rest none
  | Tok.text _ :: rest, some m => extractFrags rest (some m)
  | Tok.tag n false :: rest, none =>
      if n = "script".toList ∨ n = "style".toList then extractFrags rest (some n)
      else extractFrags rest none
  | Tok.tag _ false :: rest, some m => extractFrags rest (some m)
  | Tok.tag _ true :: rest, none => extractFrags rest none
  | Tok.tag n true :: rest, some m =>
      if n = m then extractFrags rest none else extractFrags rest (some m)

/-- Emit a maximal run of `k` newlines after `re.sub(r"\n{3,}", "\n\n")`:
a run of three or more becomes exactly two, shorter runs are kept. -/
def emitRun (k : Nat) : List Char :=
  if 3 ≤ k then ['\n', '\n'] else List.replicate k '\n'

/-- Scan accumulating the length `k` of the current newline run, flushed
through `emitRun` at each non-newline character and at the end. -/
def collapseAux : List Char → Nat → List Char
  | [], k => emitRun k
  | c :: rest, k =>
    if c = '\n' then collapseAux rest (k + 1)
    else emitRun k ++ c :: collapseAux rest 0

/-- `re.sub(r"\n{3,}", "\n\n", text)` (line 46): every maximal run of
three or more newlines becomes exactly two. -/
def collapseNewlines (cs : List Char) : List Char :=
  collapseAux cs 0

/-- `html_to_plain_text` (lines 36-47): drop script/style subtrees,
extract the visible text joined by newlines with each fragment stripped
and whitespace-only fragments discarded (`get_text("\n", strip=True)`),
collapse runs of three or more newlines to two, and strip the result. -/
def html_to_plain_text (html : String) : String :=
  List.asString (trimChars (collapseNewlines
    (List.intercalate ['\n']
      (((extractFrags (tokenize html.toList) none).map trimChars).filter
        (fun f => decide (f ≠ []))))))

/-! ### Data types of the worker -/

/-- `EmailResult` (lines 18-24): outcome of a single send attempt.
`message` is the resend id on success, the error text on failure. -/
structure EmailResult where
  recipient : String
  success : Bool
  message : String
deriving DecidableEq, Repr

/-- The provider message payload (`resend.Emails.SendParams`,
lines 159-176).  `sendFrom` is the `"from"` key; `reply_to` is `none`
when the key is absent. -/
structure Params where
  sendFrom : String
  sendTo : List String
  subject : String
  html : String
  text : String
  headers : List (String × String)
  tags : List (String × String)
  reply_to : Option String
deriving DecidableEq, Repr

/-- The provider's response to a send call (line 181 distinguishes a
dict — whose `"id"` key may be absent — from any other value). -/
inductive Response
  | rdict (id? : Option String)
  | other (s : String)
deriving DecidableEq, Repr

/-- Line 181: `response.get("id", "unknown") if isinstance(response, dict)
else str(response)`. -/
def respId : Response → String
  | Response.rdict (some i) => i
  | Response.rdict none => "unknown"
  | Response.other s => s

/-- One emitted Qt signal (lines 66-70). -/
inductive Event
  | progress (current total : Nat)
  | emailSent (r : EmailResult)
  | finishedAll (succ fail : Nat)
  | logMessage (s : String)
  | errorOccurred (s : String)
deriving DecidableEq, Repr

/-- The worker's constructed state (`__init__`, lines 72-95): the five
string fields are stripped, the body and recipient list are kept as
given, and the delay is floored at 1 second.  The `_stop_requested`
flag lives in `Env` as a poll schedule, since it is written from
another thread. -/
structure EmailSenderWorker where
  api_key : String
  from_name : String
  from_email : String
  subject : String
  html_body : String
  recipients : List String
  delay_seconds : ℚ
  reply_to : String
deriving DecidableEq, Repr

/-- `EmailSenderWorker.__init__` (lines 86-93). -/
def mkWorker (api_key from_name from_email subject html_body : String)
    (recipients : List String) (delay_seconds : ℚ) (reply_to : String) :
    EmailSenderWorker :=
  { api_key := strip api_key
    from_name := strip from_name
    from_email := strip from_email
    subject := strip subject
    html_body := html_body
    recipients := recipients
    delay_seconds := max delay_seconds 1
    reply_to := strip reply_to }

/-- The worker's external collaborators: the provider (`resend.Emails.send`;
a raised exception is the `.error` case), `int(time.time())` per
iteration, the jitter drawn by `random.uniform(-0.5, 0.5)` per
iteration, and the `_stop_requested` flag as a function of the poll
counter (the flag is read once per poll; poll `p` returns the value the
other thread has published by then). -/
structure Env where
  provider : Params → Except String Response
  timeAt : Nat → Nat
  jitter : Nat → ℚ
  stop : Nat → Bool

/-- The `"from"` field (lines 125-129): `"Name <email>"` or bare email. -/
def mkSender (w : EmailSenderWorker) : String :=
  if w.from_name ≠ "" then w.from_name ++ " <" ++ w.from_email ++ ">" else w.from_email

/-- The payload built for one recipient (lines 159-176). -/
def buildParams (w : EmailSenderWorker) (sender plain recipient : String)
    (idx tnow : Nat) : Params :=
  { sendFrom := sender
    sendTo := [recipient]
    subject := w.subject
    html := w.html_body
    text := plain
    headers := [("List-Unsubscribe", "<mailto:" ++ w.from_email ++ "?subject=unsubscribe>"),
                ("X-Entity-Ref-ID", "bulk-" ++ toString tnow ++ "-" ++ toString idx)]
    tags := [("campaign", "bulk_send"), ("batch_index", toString idx)]
    reply_to := if w.reply_to ≠ "" then some w.reply_to else none }

/-- The per-send status log line (lines 184-192). -/
def sendLogLine (ok : Bool) (idx total : Nat) (recipient detail : String) : Event :=
  Event.logMessage ("[" ++ toString (idx + 1) ++ "/" ++ toString total ++ "] " ++
    (if ok then "✓" else "✗") ++ " " ++ recipient ++ " → " ++ detail)

/-- `max(1.0, self.delay_seconds + jitter)` (line 200). -/
def sleepTime (delay jitter : ℚ) : ℚ :=
  max 1 (delay + jitter)

/-- The incremental sleep (lines 203-207): sleep in slices of at most
0.25 s; the flag is read (one poll) before each slice, short-circuited
when the remaining time is already zero.  Returns the total time slept
and the poll counter after the loop.  `fuel` is a structural bound on
the iteration count; the loop always exits by its own condition when
given `sleepFuel` fuel. -/
def sleepLoop (stop : Nat → Bool) (st : ℚ) : Nat → ℚ → Nat → ℚ × Nat
  | 0, slept, poll => (slept, poll)
  | fuel + 1, slept, poll =>
    if slept < st then
      if stop poll then (slept, poll + 1)
      else sleepLoop stop st fuel (slept + min (1/4 : ℚ) (st - slept)) (poll + 1)
    else (slept, poll)

/-- Enough fuel for `sleepLoop` to reach `st`: `st ≤ st.num`, and each
full slice advances by a quarter. -/
def sleepFuel (st : ℚ) : Nat :=
  4 * st.num.toNat + 5

/-- The rate-limit pacing (lines 198-207): only between recipients and
only when no stop was requested (the flag read in the `and` is one
poll, reached only when `idx < total - 1`).  Returns the emitted
waiting log line (if any) and the poll counter after the wait. -/
def paceStep (w : EmailSenderWorker) (env : Env) (idx total poll : Nat) :
    List Event × Nat :=
  if idx < total - 1 then
    if env.stop poll then ([], poll + 1)
    else
      ([Event.logMessage ("  waiting " ++ toString (sleepTime w.delay_seconds (env.jitter idx)) ++ "s …")],
       (sleepLoop env.stop (sleepTime w.delay_seconds (env.jitter idx))
          (sleepFuel (sleepTime w.delay_seconds (env.jitter idx))) 0 (poll + 1)).2)
  else ([], poll)

/-- What one run of the loop produces: the emitted events, the payloads
passed to the provider, and the final counters. -/
structure LoopOut where
  events : List Event
  calls : List Params
  succ : Nat
  fail : Nat
deriving DecidableEq, Repr

/-- The `for idx, recipient in enumerate(self.recipients)` loop
(lines 142-207), one constructor case per recipient.  Arguments after
the recipient list: current index, success count, fail count, poll
counter. -/
def runLoop (w : EmailSenderWorker) (env : Env) (sender plain : String) (total : Nat) :
    List String → Nat → Nat → Nat → Nat → LoopOut
  | [], _, succ, fail, _ => ⟨[], [], succ, fail⟩
  | r :: rest, idx, succ, fail, poll =>
    if env.stop poll then
      ⟨[Event.logMessage "Sending stopped by user."], [], succ, fail⟩
    else if strip r = "" then
      runLoop w env sender plain total rest (idx + 1) succ fail (poll + 1)
    else if is_valid_email (strip r) = false then
      let out := runLoop w env sender plain total rest (idx + 1) succ (fail + 1) (poll + 1)
      ⟨Event.emailSent ⟨strip r, false, "Invalid email format"⟩ ::
         Event.progress (idx + 1) total :: out.events,
       out.calls, out.succ, out.fail⟩
    else
      let params := buildParams w sender plain (strip r) idx (env.timeAt idx)
      let result :=
        match env.provider params with
        | Except.ok resp => EmailResult.mk (strip r) true (respId resp)
        | Except.error exc => EmailResult.mk (strip r) false exc
      let pace := paceStep w env idx total (poll + 1)
      let out := runLoop w env sender plain total rest (idx + 1)
        (if result.success then succ + 1 else succ)
        (if result.success then fail else fail + 1) pace.2
      ⟨sendLogLine result.success idx total (strip r) result.message ::
         Event.emailSent result :: Event.progress (idx + 1) total :: (pace.1 ++ out.events),
       params :: out.calls, out.succ, out.fail⟩

/-- The validation prologue of `run` (lines 106-120): the message of
the first failing check, or `none` when all five pass. -/
def firstValidationError (w : EmailSenderWorker) : Option String :=
  if w.api_key = "" then some "API key is empty."
  else if w.from_email = "" then some "Sender email is empty."
  else if w.subject = "" then some "Subject line is empty."
  else if strip w.html_body = "" then some "Email body (HTML) is empty."
  else if w.recipients = [] then some "Recipient list is empty."
  else none

/-- `EmailSenderWorker.run` (lines 104-209): validate, build the sender
string, render the plain text once, run the loop, and emit
`finished_all` on loop exit.  Returns the event trace and the list of
provider calls made. -/
def EmailSenderWorker.run (w : EmailSenderWorker) (env : Env) :
    List Event × List Params :=
  match firstValidationError w with
  | some m => ([Event.errorOccurred m], [])
  | none =>
    let out := runLoop w env (mkSender w) (html_to_plain_text w.html_body)
      w.recipients.length w.recipients 0 0 0 0
    (Event.logMessage ("Starting to send " ++ toString w.recipients.length ++
        " email(s) with ~" ++ toString w.delay_seconds ++ "s delay…") ::
       out.events ++ [Event.finishedAll out.succ out.fail],
     out.calls)

/-! ### Observers used by the statements -/

/-- The recipient of an outcome event, if the event is one. -/
def eventRecipient : Event → Option String
  | Event.emailSent r => some r.recipient
  | _ => none

/-- The recipients of the outcome events of a trace, in order. -/
def outcomeRecipients (evs : List Event) : List String :=
  evs.filterMap eventRecipient

/-- Whether an event is the final summary (`finished_all`). -/
def isFinishedAllEv : Event → Bool
  | Event.finishedAll _ _ => true
  | _ => false

/-- Whether an event is an outcome (`email_sent`). -/
def isOutcomeEv : Event → Bool
  | Event.emailSent _ => true
  | _ => false

/-- Whether an event is an invalid-format outcome. -/
def isInvalidFormatEv : Event → Bool
  | Event.emailSent r => decide (r.message = "Invalid email format")
  | _ => false

/-- Contiguous-substring test on character lists. -/
def isSubListOf (needle : List Char) : List Char → Bool
  | [] => needle.isEmpty
  | x :: rest => needle.isPrefixOf (x :: rest) || isSubListOf needle rest

/-- Three consecutive newlines occur somewhere in the list. -/
def hasTriple : List Char → Bool
  | a :: b :: c :: rest =>
    (a == '\n' && (b == '\n' && c == '\n')) || hasTriple (b :: c :: rest)
  | _ => false

/-! ### Concrete inputs used by witnesses and counterexamples -/

/-- A benign environment: the provider accepts every message with id
`"id-1"`, the jitter is zero, and cancellation is never requested. -/
def env0 : Env :=
  { provider := fun _ => Except.ok (Response.rdict (some "id-1"))
    timeAt := fun _ => 1700000000
    jitter := fun _ => 0
    stop := fun _ => false }

/-- An environment whose provider raises on every call. -/
def envErr : Env :=
  { env0 with provider := fun _ => Except.error "boom" }

/-- An environment in which cancellation has already been requested. -/
def envStopNow : Env :=
  { env0 with stop := fun _ => true }

/-- An environment in which cancellation is requested right after the
first read of the flag (i.e. while the first recipient is in flight). -/
def envStopAfter1 : Env :=
  { env0 with stop := fun p => decide (1 ≤ p) }

/-- The spec's four-recipient example list. -/
def w3 : EmailSenderWorker :=
  mkWorker "key" "Name" "from@x.co" "Subj" "<p>Hello</p>"
    ["a@x.com", "", "bad", "b@x.com"] 1 ""

/-- A two-recipient campaign, for the cancellation example. -/
def w5 : EmailSenderWorker :=
  mkWorker "key" "Name" "from@x.co" "Subj" "<p>H</p>" ["a@x.com", "b@x.com"] 1 ""

/-- A campaign whose API key is empty and everything else non-empty. -/
def wBad : EmailSenderWorker :=
  mkWorker "" "Name" "from@x.co" "Subj" "<p>H</p>" ["a@x.com"] 5 ""

/-- A one-recipient campaign with a reply-to address. -/
def w8 : EmailSenderWorker :=
  mkWorker "key" "Name" "from@x.co" "Subj" "<p>H</p>" ["a@x.com"] 1 "reply@x.co"

/-! ### The email validator decides the anchored regex language (C7) -/

lemma splitAtFirst_eq_some {c : Char} :
    ∀ {cs l r : List Char}, splitAtFirst c cs = some (l, r) →
      cs = l ++ c :: r ∧ c ∉ l := by
  intro cs
  induction cs with
  | nil => intro l r h; simp [splitAtFirst] at h
  | cons x xs ih =>
    intro l r h
    by_cases hx : x = c
    · subst hx
      simp [splitAtFirst] at h
      obtain ⟨hl, hr⟩ := h
      subst hl; subst hr
      exact ⟨rfl, by simp⟩
    · rw [splitAtFirst, if_neg hx] at h
      rcases ho : splitAtFirst c xs with _ | p
      · rw [ho] at h; simp at h
      · rw [ho] at h
        simp only [Option.map_some', Option.some.injEq, Prod.mk.injEq] at h
        obtain ⟨h1, h2⟩ := h
        obtain ⟨he, hn⟩ := ih ho
        subst h1; subst h2
        constructor
        · rw [he]; rfl
        · intro hc
          rcases List.mem_cons.mp hc with hc | hc
          · exact hx hc.symm
          · exact hn hc

lemma splitAtFirst_append {c : Char} :
    ∀ (l r : List Char), c ∉ l → splitAtFirst c (l ++ c :: r) = some (l, r) := by
  intro l
  induction l with
  | nil => intro r _; simp [splitAtFirst]
  | cons x xs ih =>
    intro r h
    have hx : ¬ x = c := by
      intro he; exact h (by rw [he]; exact List.mem_cons_self c xs)
    have hxs : c ∉ xs := fun hc => h (List.mem_cons_of_mem _ hc)
    simp only [List.cons_append, splitAtFirst, List.append_eq, if_neg hx,
      ih r hxs, Option.map_some']

/-- The regex language of `_EMAIL_RE`: the split is at the (unique)
`@` and at the last dot of the domain part. -/
lemma emailMatch_iff (cs : List Char) :
    emailMatch cs = true ↔
      ∃ l d t : List Char,
        cs = l ++ '@' :: (d ++ '.' :: t) ∧
        l ≠ [] ∧ (∀ x ∈ l, isLocalChar x) ∧
        d ≠ [] ∧ (∀ x ∈ d, isDomainChar x) ∧
        (∀ x ∈ t, x.isAlpha) ∧ 2 ≤ t.length := by
  constructor
  · intro h
    rw [emailMatch] at h
    split at h
    · cases h
    · rename_i l rest h1
      split at h
      · cases h
      · rename_i d t h2
        simp only [Bool.and_eq_true, List.all_eq_true, Bool.not_eq_true',
          List.isEmpty_eq_false, decide_eq_true_eq] at h
        obtain ⟨⟨⟨⟨⟨hl0, hl1⟩, hd0⟩, hd1⟩, ht1⟩, ht2⟩ := h
        unfold splitAtLast at h2
        rcases h3 : splitAtFirst '.' rest.reverse with _ | p
        · rw [h3] at h2; simp at h2
        · rw [h3] at h2
          simp only [Option.map_some', Option.some.injEq, Prod.mk.injEq] at h2
          obtain ⟨hd, ht⟩ := h2
          obtain ⟨hrev, _⟩ := splitAtFirst_eq_some h3
          have hrest : rest = d ++ '.' :: t := by
            have := congrArg List.reverse hrev
            rw [List.reverse_reverse, List.reverse_append, List.reverse_cons,
              List.append_assoc] at this
            rw [this, hd, ht]
            simp
          obtain ⟨hcs, _⟩ := splitAtFirst_eq_some h1
          refine ⟨l, d, t, ?_, hl0, hl1, hd0, hd1, ht1, ht2⟩
          rw [hcs, hrest]
  · rintro ⟨l, d, t, hcs, hl0, hl1, hd0, hd1, ht1, ht2⟩
    have hat : '@' ∉ l := by
      intro hc
      have := hl1 '@' hc
      simp [isLocalChar] at this
    have hdot : '.' ∉ t.reverse := by
      intro hc
      have := ht1 '.' (List.mem_reverse.mp hc)
      simp at this
    have hrev : (d ++ '.' :: t).reverse = t.reverse ++ '.' :: d.reverse := by
      rw [List.reverse_append, List.reverse_cons, List.append_assoc]
      simp
    have h1 := splitAtFirst_append l (d ++ '.' :: t) hat
    have h2 := splitAtFirst_append t.reverse d.reverse hdot
    simp only [emailMatch, splitAtLast, hcs, h1, hrev, h2, Option.map_some',
      List.reverse_reverse]
    simp only [Bool.and_eq_true, List.all_eq_true, Bool.not_eq_true',
      List.isEmpty_eq_false, decide_eq_true_eq]
    exact ⟨⟨⟨⟨⟨hl0, hl1⟩, hd0⟩, hd1⟩, ht1⟩, ht2⟩

/-! ### The plain text renderer never emits three newlines in a row (C9) -/

lemma hasTriple_eq_true (cs : List Char) :
    hasTriple cs = true ↔ ['\n', '\n', '\n'] <:+: cs := by
  induction cs using hasTriple.induct with
  | case1 a b c rest ih =>
    rw [hasTriple]
    simp only [Bool.or_eq_true, Bool.and_eq_true, beq_iff_eq]
    constructor
    · rintro (⟨ha, hb, hc⟩ | h)
      · subst ha; subst hb; subst hc
        exact ⟨[], rest, rfl⟩
      · obtain ⟨s, t, hst⟩ := ih.mp h
        exact ⟨a :: s, t, by rw [← hst]; rfl⟩
    · intro h
      rcases List.infix_cons_iff.mp h with h | h
      · simp only [List.cons_prefix_cons] at h
        obtain ⟨ha, hb, hc, _⟩ := h
        exact Or.inl ⟨ha.symm, hb.symm, hc.symm⟩
      · exact Or.inr (ih.mpr h)
  | case2 x hne =>
    rcases x with _ | ⟨a, _ | ⟨b, _ | ⟨c, rest⟩⟩⟩
    · constructor
      · intro h; rw [show hasTriple [] = false from rfl] at h; cases h
      · intro h; have := h.length_le; simp at this
    · constructor
      · intro h; rw [show hasTriple [a] = false from rfl] at h; cases h
      · intro h; have := h.length_le; simp at this
    · constructor
      · intro h; rw [show hasTriple [a, b] = false from rfl] at h; cases h
      · intro h; have := h.length_le; simp at this
    · exact (hne a b c rest rfl).elim

lemma hasTriple_of_sub {l m : List Char} (hsub : m <:+: l)
    (h : hasTriple l = false) : hasTriple m = false := by
  by_contra hm
  rw [Bool.not_eq_false] at hm
  rw [← Bool.not_eq_true, hasTriple_eq_true] at h
  exact h (((hasTriple_eq_true m).mp hm).trans hsub)

lemma hasTriple_reverse (l : List Char) :
    hasTriple l.reverse = hasTriple l := by
  have key : ∀ m : List Char, hasTriple m = true → hasTriple m.reverse = true := by
    intro m hm
    rw [hasTriple_eq_true]
    have h1 := ((hasTriple_eq_true m).mp hm).reverse
    simpa using h1
  rcases h : hasTriple l with _ | _
  · rcases hr : hasTriple l.reverse with _ | _
    · rfl
    · have := key l.reverse hr
      rw [List.reverse_reverse, h] at this
      cases this
  · exact key l h

lemma hasTriple_trimChars {l : List Char} (h : hasTriple l = false) :
    hasTriple (trimChars l) = false := by
  rw [trimChars, hasTriple_reverse]
  refine hasTriple_of_sub (List.IsSuffix.isInfix (List.dropWhile_suffix _)) ?_
  rw [hasTriple_reverse]
  exact hasTriple_of_sub (List.IsSuffix.isInfix (List.dropWhile_suffix _)) h

lemma hasTriple_cons_ne {c : Char} {out : List Char} (hc : c ≠ '\n')
    (h : hasTriple out = false) : hasTriple (c :: out) = false := by
  match out with
  | [] => rfl
  | [x] => rfl
  | x :: y :: zs =>
    rw [hasTriple, h]
    simp [hc]

lemma hasTriple_nl_cons {out : List Char} (hh : ∀ x, out.head? = some x → x ≠ '\n')
    (h : hasTriple out = false) : hasTriple ('\n' :: out) = false := by
  match out with
  | [] => rfl
  | [x] => rfl
  | x :: y :: zs =>
    have hx : x ≠ '\n' := hh x rfl
    rw [hasTriple, h]
    simp [hx]

lemma hasTriple_nl_nl_cons {out : List Char} (hh : ∀ x, out.head? = some x → x ≠ '\n')
    (h : hasTriple out = false) : hasTriple ('\n' :: '\n' :: out) = false := by
  match out with
  | [] => rfl
  | x :: zs =>
    have hx : x ≠ '\n' := hh x rfl
    rw [hasTriple, hasTriple_nl_cons hh h]
    simp [hx]

lemma emitRun_cases (k : Nat) :
    emitRun k = [] ∨ emitRun k = ['\n'] ∨ emitRun k = ['\n', '\n'] := by
  rw [emitRun]
  by_cases h3 : 3 ≤ k
  · rw [if_pos h3]
    right; right; rfl
  · rw [if_neg h3]
    have hk : k = 0 ∨ k = 1 ∨ k = 2 := by omega
    rcases hk with h | h | h <;> subst h <;> simp

lemma collapseAux_noTriple : ∀ (cs : List Char) (k : Nat),
    hasTriple (collapseAux cs k) = false := by
  intro cs
  induction cs with
  | nil =>
    intro k
    rw [collapseAux]
    rcases emitRun_cases k with h | h | h <;> rw [h] <;> rfl
  | cons c rest ih =>
    intro k
    by_cases hc : c = '\n'
    · subst hc
      rw [collapseAux, if_pos rfl]
      exact ih (k + 1)
    · rw [collapseAux, if_neg hc]
      have h1 : hasTriple (c :: collapseAux rest 0) = false :=
        hasTriple_cons_ne hc (ih 0)
      have hh : ∀ x, (c :: collapseAux rest 0).head? = some x → x ≠ '\n' := by
        intro x hx
        rw [List.head?_cons, Option.some.injEq] at hx
        subst hx
        exact hc
      rcases emitRun_cases k with h | h | h <;> rw [h]
      · exact h1
      · exact hasTriple_nl_cons hh h1
      · exact hasTriple_nl_nl_cons hh h1

lemma hasTriple_toPlainText (s : String) :
    hasTriple (html_to_plain_text s).toList = false := by
  rw [html_to_plain_text, collapseNewlines]
  exact hasTriple_trimChars (collapseAux_noTriple _ 0)

/-- C9 (amended): `toPlainText` removes script and style subtrees — on
the spec's example the output contains `"Hi"` and `"there"` but never
`"evil()"` — and collapses interior newline runs: the five-newline run
of `"a\n\n\n\n\nb"` becomes exactly two, and no output of the renderer
ever contains three consecutive newlines.  (A newline run at the very
start or end of the extracted text is removed entirely by the stripping
steps rather than collapsed to two — see the counterexample.) -/
theorem toPlainText_amended :
    (isSubListOf ("evil()".toList)
        ((html_to_plain_text "<script>evil()</script><p>Hi <b>there</b></p>").toList) = false ∧
      isSubListOf ("Hi".toList)
        ((html_to_plain_text "<script>evil()</script><p>Hi <b>there</b></p>").toList) = true ∧
      isSubListOf ("there".toList)
        ((html_to_plain_text "<script>evil()</script><p>Hi <b>there</b></p>").toList) = true) ∧
    html_to_plain_text "a\n\n\n\n\nb" = "a\n\nb" ∧
    (∀ s : String, hasTriple (html_to_plain_text s).toList = false) :=
  ⟨⟨by decide, by decide, by decide⟩, by decide, hasTriple_toPlainText⟩

/-- C9 (counterexample): the input `"\n\n\n\n\n"` contains five
consecutive newlines, yet the output of `toPlainText` is empty — the
run is not collapsed to exactly two newlines, refuting the claim for
arbitrary inputs. -/
theorem toPlainText_five_newline_cex :
    html_to_plain_text "\n\n\n\n\n" = "" ∧
    ¬ ((html_to_plain_text "\n\n\n\n\n").toList.count '\n' = 2) :=
  ⟨by decide, by decide⟩

/-- C7: `is_valid_email` trims its input and accepts exactly the
strings of the form `local@domain.tld` — local part over letters,
digits, `.`, `_`, `%`, `+`, `-`; domain over letters, digits, `.`, `-`;
top-level label purely alphabetic of length at least 2 — and in
particular accepts `"a.b+c@sub.example.co"` and rejects
`"not-an-email"` and `"a@b"`; it is a total function. -/
theorem is_valid_email_spec :
    (∀ s : String,
      is_valid_email s = true ↔
        ∃ l d t : List Char,
          (strip s).toList = l ++ '@' :: (d ++ '.' :: t) ∧
          l ≠ [] ∧ (∀ x ∈ l, isLocalChar x) ∧
          d ≠ [] ∧ (∀ x ∈ d, isDomainChar x) ∧
          (∀ x ∈ t, x.isAlpha) ∧ 2 ≤ t.length) ∧
    is_valid_email "a.b+c@sub.example.co" = true ∧
    is_valid_email "not-an-email" = false ∧
    is_valid_email "a@b" = false := by
  refine ⟨fun s => ?_, by decide, by decide, by decide⟩
  rw [is_valid_email]
  exact emailMatch_iff (strip s).toList

/-! ### Step lemmas for the send loop -/

lemma runLoop_stop {w : EmailSenderWorker} {env : Env} {sender plain : String}
    {total : Nat} {r : String} {rest : List String} {idx succ fail poll : Nat}
    (h : env.stop poll = true) :
    runLoop w env sender plain total (r :: rest) idx succ fail poll =
      ⟨[Event.logMessage "Sending stopped by user."], [], succ, fail⟩ := by
  rw [runLoop, if_pos h]

lemma runLoop_blank {w : EmailSenderWorker} {env : Env} {sender plain : String}
    {total : Nat} {r : String} {rest : List String} {idx succ fail poll : Nat}
    (h : env.stop poll = false) (hb : strip r = "") :
    runLoop w env sender plain total (r :: rest) idx succ fail poll =
      runLoop w env sender plain total rest (idx + 1) succ fail (poll + 1) := by
  rw [runLoop, if_neg (by rw [h]; exact Bool.false_ne_true), if_pos hb]

lemma runLoop_invalid {w : EmailSenderWorker} {env : Env} {sender plain : String}
    {total : Nat} {r : String} {rest : List String} {idx succ fail poll : Nat}
    (h : env.stop poll = false) (hb : strip r ≠ "")
    (hv : is_valid_email (strip r) = false) :
    runLoop w env sender plain total (r :: rest) idx succ fail poll =
      let out := runLoop w env sender plain total rest (idx + 1) succ (fail + 1) (poll + 1)
      ⟨Event.emailSent ⟨strip r, false, "Invalid email format"⟩ ::
         Event.progress (idx + 1) total :: out.events,
       out.calls, out.succ, out.fail⟩ := by
  rw [runLoop, if_neg (by rw [h]; exact Bool.false_ne_true), if_neg hb, if_pos hv]

lemma runLoop_send_error {w : EmailSenderWorker} {env : Env} {sender plain : String}
    {total : Nat} {r : String} {rest : List String} {idx succ fail poll : Nat}
    {e : String}
    (h : env.stop poll = false) (hb : strip r ≠ "")
    (hv : is_valid_email (strip r) = true)
    (hp : env.provider (buildParams w sender plain (strip r) idx (env.timeAt idx)) =
      Except.error e) :
    runLoop w env sender plain total (r :: rest) idx succ fail poll =
      let pace := paceStep w env idx total (poll + 1)
      let out := runLoop w env sender plain total rest (idx + 1) succ (fail + 1) pace.2
      ⟨sendLogLine false idx total (strip r) e ::
         Event.emailSent ⟨strip r, false, e⟩ ::
         Event.progress (idx + 1) total :: (pace.1 ++ out.events),
       buildParams w sender plain (strip r) idx (env.timeAt idx) :: out.calls,
       out.succ, out.fail⟩ := by
  rw [runLoop, if_neg (by rw [h]; exact Bool.false_ne_true), if_neg hb,
    if_neg (by simp [hv])]
  simp [hp]

lemma sleepLoop_stop_slept {stop : Nat → Bool} {st : ℚ} {fuel : Nat}
    {slept : ℚ} {poll : Nat} (h : stop poll = true) :
    (sleepLoop stop st fuel slept poll).1 = slept := by
  cases fuel with
  | zero => rfl
  | succ n =>
    rw [sleepLoop]
    by_cases hlt : slept < st
    · rw [if_pos hlt, if_pos h]
    · rw [if_neg hlt]

lemma sleepLoop_one_slice {stop : Nat → Bool} {st : ℚ} {slept : ℚ} {poll : Nat}
    (fuel : Nat) (hq : ∀ q, poll + 1 ≤ q → stop q = true) :
    (sleepLoop stop st fuel slept poll).1 ≤ slept + 1/4 := by
  cases fuel with
  | zero =>
    show slept ≤ slept + 1/4
    linarith
  | succ n =>
    rw [sleepLoop]
    by_cases hlt : slept < st
    · rw [if_pos hlt]
      by_cases hs : stop poll = true
      · rw [if_pos hs]
        show slept ≤ slept + 1/4
        linarith
      · rw [if_neg hs]
        rw [sleepLoop_stop_slept (hq (poll + 1) le_rfl)]
        have hm : min (1/4 : ℚ) (st - slept) ≤ 1/4 := min_le_left _ _
        linarith
    · rw [if_neg hlt]
      show slept ≤ slept + 1/4
      linarith

/-! ### The claims about the send loop -/

/-- C1: with the five inputs checked in order — apiKey, fromEmail,
subject, stripped htmlBody, recipients — the first empty one makes
`run` emit exactly one fatal error event naming that field and return
with no provider call and no outcome, progress, or completion event. -/
theorem run_validation_first_failure :
    (∀ (w : EmailSenderWorker) (env : Env) (m : String),
       firstValidationError w = some m →
       EmailSenderWorker.run w env = ([Event.errorOccurred m], [])) ∧
    (∀ w : EmailSenderWorker, w.api_key = "" →
       firstValidationError w = some "API key is empty.") ∧
    (∀ w : EmailSenderWorker, w.api_key ≠ "" → w.from_email = "" →
       firstValidationError w = some "Sender email is empty.") ∧
    (∀ w : EmailSenderWorker, w.api_key ≠ "" → w.from_email ≠ "" → w.subject = "" →
       firstValidationError w = some "Subject line is empty.") ∧
    (∀ w : EmailSenderWorker, w.api_key ≠ "" → w.from_email ≠ "" → w.subject ≠ "" →
       strip w.html_body = "" →
       firstValidationError w = some "Email body (HTML) is empty.") ∧
    (∀ w : EmailSenderWorker, w.api_key ≠ "" → w.from_email ≠ "" → w.subject ≠ "" →
       strip w.html_body ≠ "" → w.recipients = [] →
       firstValidationError w = some "Recipient list is empty.") := by
  refine ⟨?_, ?_, ?_, ?_, ?_, ?_⟩
  · intro w env m h
    simp only [EmailSenderWorker.run, h]
  · intro w h1
    simp [firstValidationError, h1]
  · intro w h1 h2
    simp [firstValidationError, h1, h2]
  · intro w h1 h2 h3
    simp [firstValidationError, h1, h2, h3]
  · intro w h1 h2 h3 h4
    simp [firstValidationError, h1, h2, h3, h4]
  · intro w h1 h2 h3 h4 h5
    simp [firstValidationError, h1, h2, h3, h4, h5]

theorem run_validation_first_failure_witness :
    firstValidationError wBad = some "API key is empty." ∧
    EmailSenderWorker.run wBad env0 = ([Event.errorOccurred "API key is empty."], []) :=
  ⟨by decide,
   run_validation_first_failure.1 wBad env0 "API key is empty." (by decide)⟩

/-- C2: when the provider call for a valid recipient raises `e`, the
loop records a failed outcome whose detail is `e`, increments the fail
counter, emits the outcome and progress events, and continues with the
remaining recipients — the exception never escapes the iteration (in
the embedding the `try/except` is the `Except.error` branch, and the
loop is a total function of the provider's answers). -/
theorem run_provider_error_continues :
    ∀ (w : EmailSenderWorker) (env : Env) (sender plain : String) (total : Nat)
      (r : String) (rest : List String) (idx succ fail poll : Nat) (e : String),
      env.stop poll = false → strip r ≠ "" → is_valid_email (strip r) = true →
      env.provider (buildParams w sender plain (strip r) idx (env.timeAt idx)) =
        Except.error e →
      runLoop w env sender plain total (r :: rest) idx succ fail poll =
        let pace := paceStep w env idx total (poll + 1)
        let out := runLoop w env sender plain total rest (idx + 1) succ (fail + 1) pace.2
        ⟨sendLogLine false idx total (strip r) e ::
           Event.emailSent ⟨strip r, false, e⟩ ::
           Event.progress (idx + 1) total :: (pace.1 ++ out.events),
         buildParams w sender plain (strip r) idx (env.timeAt idx) :: out.calls,
         out.succ, out.fail⟩ :=
  fun _ _ _ _ _ _ _ _ _ _ _ _ h hb hv hp => runLoop_send_error h hb hv hp

theorem run_provider_error_continues_witness :
    (envErr.stop 0 = false ∧ strip "a@x.com" ≠ "" ∧
      is_valid_email (strip "a@x.com") = true ∧
      envErr.provider (buildParams w5 "Name <from@x.co>" "H" (strip "a@x.com") 0
        (envErr.timeAt 0)) = Except.error "boom") ∧
    runLoop w5 envErr "Name <from@x.co>" "H" 2 ["a@x.com", "b@x.com"] 0 0 0 0 =
      let pace := paceStep w5 envErr 0 2 1
      let out := runLoop w5 envErr "Name <from@x.co>" "H" 2 ["b@x.com"] 1 0 1 pace.2
      ⟨sendLogLine false 0 2 (strip "a@x.com") "boom" ::
         Event.emailSent ⟨strip "a@x.com", false, "boom"⟩ ::
         Event.progress 1 2 :: (pace.1 ++ out.events),
       buildParams w5 "Name <from@x.co>" "H" (strip "a@x.com") 0 (envErr.timeAt 0) ::
         out.calls,
       out.succ, out.fail⟩ :=
  ⟨⟨rfl, by decide, by decide, rfl⟩,
   run_provider_error_continues w5 envErr "Name <from@x.co>" "H" 2 "a@x.com"
     ["b@x.com"] 0 0 0 0 "boom" rfl (by decide) (by decide) rfl⟩

/-- C3: a recipient that is blank after stripping is skipped with no
event and no count change; a non-blank recipient failing the validator
yields exactly one outcome with `succeeded = false` and detail
`"Invalid email format"`, a fail-count increment, outcome and progress
events, and no provider call; on the spec's four-recipient example the
run makes exactly 2 provider calls, produces 3 outcomes of which exactly
1 is invalid-format, and the blank entry contributes none. -/
theorem run_blank_skip_and_invalid :
    (∀ (w : EmailSenderWorker) (env : Env) (sender plain : String) (total : Nat)
       (r : String) (rest : List String) (idx succ fail poll : Nat),
       env.stop poll = false → strip r = "" →
       runLoop w env sender plain total (r :: rest) idx succ fail poll =
         runLoop w env sender plain total rest (idx + 1) succ fail (poll + 1)) ∧
    (∀ (w : EmailSenderWorker) (env : Env) (sender plain : String) (total : Nat)
       (r : String) (rest : List String) (idx succ fail poll : Nat),
       env.stop poll = false → strip r ≠ "" → is_valid_email (strip r) = false →
       runLoop w env sender plain total (r :: rest) idx succ fail poll =
         let out := runLoop w env sender plain total rest (idx + 1) succ (fail + 1)
           (poll + 1)
         ⟨Event.emailSent ⟨strip r, false, "Invalid email format"⟩ ::
            Event.progress (idx + 1) total :: out.events,
          out.calls, out.succ, out.fail⟩) ∧
    (outcomeRecipients (EmailSenderWorker.run w3 env0).1 = ["a@x.com", "bad", "b@x.com"] ∧
      (EmailSenderWorker.run w3 env0).1.countP isInvalidFormatEv = 1 ∧
      (EmailSenderWorker.run w3 env0).1.countP isOutcomeEv = 3 ∧
      (EmailSenderWorker.run w3 env0).2.length = 2) :=
  ⟨fun _ _ _ _ _ _ _ _ _ _ _ h hb => runLoop_blank h hb,
   fun _ _ _ _ _ _ _ _ _ _ _ h hb hv => runLoop_invalid h hb hv,
   by decide, by decide, by decide, by decide⟩

theorem run_blank_skip_and_invalid_witness :
    (env0.stop 0 = false ∧ strip " " = "") ∧
    runLoop w3 env0 "s" "p" 1 [" "] 0 0 0 0 = runLoop w3 env0 "s" "p" 1 [] 1 0 0 1 :=
  ⟨⟨rfl, by decide⟩,
   run_blank_skip_and_invalid.1 w3 env0 "s" "p" 1 " " [] 0 0 0 0 rfl (by decide)⟩

/-- C5: once the stop flag reads true at the top of an iteration the
loop logs that sending was stopped by the user and breaks, leaving the
remaining recipients unprocessed and the counters unchanged; once the
flag reads true inside the pacing wait no further slice is slept, and a
flag raised during the current slice adds at most one slice of 0.25 s;
cancelling while the first of two recipients is in flight makes the
final summary report the counts of the first recipient only. -/
theorem run_cancellation_prompt :
    (∀ (w : EmailSenderWorker) (env : Env) (sender plain : String) (total : Nat)
       (r : String) (rest : List String) (idx succ fail poll : Nat),
       env.stop poll = true →
       runLoop w env sender plain total (r :: rest) idx succ fail poll =
         ⟨[Event.logMessage "Sending stopped by user."], [], succ, fail⟩) ∧
    (∀ (stop : Nat → Bool) (st : ℚ) (fuel : Nat) (slept : ℚ) (poll : Nat),
       stop poll = true → (sleepLoop stop st fuel slept poll).1 = slept) ∧
    (∀ (stop : Nat → Bool) (st : ℚ) (fuel : Nat) (slept : ℚ) (poll : Nat),
       (∀ q, poll + 1 ≤ q → stop q = true) →
       (sleepLoop stop st fuel slept poll).1 ≤ slept + 1/4) ∧
    ((EmailSenderWorker.run w5 envStopAfter1).1.getLast? =
        some (Event.finishedAll 1 0) ∧
      Event.logMessage "Sending stopped by user." ∈
        (EmailSenderWorker.run w5 envStopAfter1).1) :=
  ⟨fun _ _ _ _ _ _ _ _ _ _ _ h => runLoop_stop h,
   fun _ _ _ _ _ h => sleepLoop_stop_slept h,
   fun _ _ fuel _ _ hq => sleepLoop_one_slice fuel hq,
   by decide, by decide⟩

theorem run_cancellation_prompt_witness :
    envStopNow.stop 0 = true ∧
    runLoop w5 envStopNow "s" "p" 2 ["a@x.com"] 0 0 0 0 =
      ⟨[Event.logMessage "Sending stopped by user."], [], 0, 0⟩ :=
  ⟨rfl, run_cancellation_prompt.1 w5 envStopNow "s" "p" 2 "a@x.com" [] 0 0 0 0 rfl⟩

/-- C6: the constructor clamps the delay to at least 1 second; the
pacing wait is the delay plus the jitter, floored at 1 second, so for a
5-second delay and jitter within ±0.5 s every wait lies in [4.5, 5.5],
and no wait is ever below 1 second. -/
theorem delay_clamp_jitter_bounds :
    (∀ (api_key from_name from_email subject html_body : String)
       (recipients : List String) (d : ℚ) (reply_to : String),
       (mkWorker api_key from_name from_email subject html_body recipients
           d reply_to).delay_seconds = max d 1 ∧
       1 ≤ (mkWorker api_key from_name from_email subject html_body recipients
           d reply_to).delay_seconds) ∧
    (∀ j : ℚ, -(1/2) ≤ j → j ≤ 1/2 →
       9/2 ≤ sleepTime 5 j ∧ sleepTime 5 j ≤ 11/2) ∧
    (∀ d j : ℚ, 1 ≤ sleepTime d j) := by
  refine ⟨fun _ _ _ _ _ _ d _ => ⟨rfl, le_max_right d 1⟩, fun j h1 h2 => ⟨?_, ?_⟩,
    fun d j => le_max_left 1 (d + j)⟩
  · have h3 : (9/2 : ℚ) ≤ 5 + j := by linarith
    exact le_trans h3 (le_max_right 1 (5 + j))
  · have h3 : (5 : ℚ) + j ≤ 11/2 := by linarith
    exact max_le (by norm_num) h3

theorem delay_clamp_jitter_bounds_witness :
    (-(1/2) : ℚ) ≤ 1/2 ∧ (1/2 : ℚ) ≤ 1/2 ∧
    (9/2 ≤ sleepTime 5 (1/2) ∧ sleepTime 5 (1/2) ≤ 11/2) :=
  ⟨by norm_num, le_rfl,
   delay_clamp_jitter_bounds.2.1 (1/2) (by norm_num) le_rfl⟩

lemma runLoop_send {w : EmailSenderWorker} {env : Env} {sender plain : String}
    {total : Nat} {r : String} {rest : List String} {idx succ fail poll : Nat}
    (h : env.stop poll = false) (hb : strip r ≠ "")
    (hv : is_valid_email (strip r) = true) :
    runLoop w env sender plain total (r :: rest) idx succ fail poll =
      let params := buildParams w sender plain (strip r) idx (env.timeAt idx)
      let result := match env.provider params with
        | Except.ok resp => EmailResult.mk (strip r) true (respId resp)
        | Except.error exc => EmailResult.mk (strip r) false exc
      let pace := paceStep w env idx total (poll + 1)
      let out := runLoop w env sender plain total rest (idx + 1)
        (if result.success then succ + 1 else succ)
        (if result.success then fail else fail + 1) pace.2
      ⟨sendLogLine result.success idx total (strip r) result.message ::
         Event.emailSent result :: Event.progress (idx + 1) total ::
           (pace.1 ++ out.events),
       params :: out.calls, out.succ, out.fail⟩ := by
  rw [runLoop, if_neg (by rw [h]; exact Bool.false_ne_true), if_neg hb,
    if_neg (by simp [hv])]

lemma paceStep_events_cases (w : EmailSenderWorker) (env : Env) (idx total poll : Nat) :
    (paceStep w env idx total poll).1 = [] ∨
      ∃ s, (paceStep w env idx total poll).1 = [Event.logMessage s] := by
  rw [paceStep]
  by_cases h1 : idx < total - 1
  · rw [if_pos h1]
    by_cases h2 : env.stop poll = true
    · rw [if_pos h2]
      left
      rfl
    · rw [if_neg h2]
      right
      exact ⟨_, rfl⟩
  · rw [if_neg h1]
    left
    rfl

lemma runLoop_countP_finished (w : EmailSenderWorker) (env : Env)
    (sender plain : String) (total : Nat) :
    ∀ (rs : List String) (idx succ fail poll : Nat),
      (runLoop w env sender plain total rs idx succ fail poll).events.countP
        isFinishedAllEv = 0 := by
  intro rs
  induction rs with
  | nil => intro idx succ fail poll; rfl
  | cons r rest ih =>
    intro idx succ fail poll
    by_cases hstop : env.stop poll = true
    · rw [runLoop_stop hstop]
      rfl
    · have hs : env.stop poll = false := by
        rw [Bool.not_eq_true] at hstop
        exact hstop
      by_cases hb : strip r = ""
      · rw [runLoop_blank hs hb]
        exact ih (idx + 1) succ fail (poll + 1)
      · by_cases hv : is_valid_email (strip r) = true
        · rcases paceStep_events_cases w env idx total (poll + 1) with hp | ⟨sl, hp⟩ <;>
            simp [runLoop_send hs hb hv, hp, isFinishedAllEv, sendLogLine,
              List.countP_cons, List.countP_append, ih]
        · have hv2 : is_valid_email (strip r) = false := by
            rw [Bool.not_eq_true] at hv
            exact hv
          simp [runLoop_invalid hs hb hv2, isFinishedAllEv, List.countP_cons, ih]

lemma runLoop_calls_shape (w : EmailSenderWorker) (env : Env)
    (sender plain : String) (total : Nat) :
    ∀ (rs : List String) (idx succ fail poll : Nat) (p : Params),
      p ∈ (runLoop w env sender plain total rs idx succ fail poll).calls →
      ∃ r i, is_valid_email r = true ∧ p = buildParams w sender plain r i (env.timeAt i) := by
  intro rs
  induction rs with
  | nil => intro idx succ fail poll p hp; simp [runLoop] at hp
  | cons r rest ih =>
    intro idx succ fail poll p hp
    by_cases hstop : env.stop poll = true
    · rw [runLoop_stop hstop] at hp
      simp at hp
    · have hs : env.stop poll = false := by
        rw [Bool.not_eq_true] at hstop
        exact hstop
      by_cases hb : strip r = ""
      · rw [runLoop_blank hs hb] at hp
        exact ih (idx + 1) succ fail (poll + 1) p hp
      · by_cases hv : is_valid_email (strip r) = true
        · rw [runLoop_send hs hb hv] at hp
          simp only [List.mem_cons] at hp
          rcases hp with hp | hp
          · exact ⟨strip r, idx, hv, hp⟩
          · exact ih _ _ _ _ p hp
        · have hv2 : is_valid_email (strip r) = false := by
            rw [Bool.not_eq_true] at hv
            exact hv
          rw [runLoop_invalid hs hb hv2] at hp
          exact ih _ _ _ _ p hp

lemma runLoop_outcomes_noStop (w : EmailSenderWorker) (env : Env)
    (sender plain : String) (total : Nat) (hstop : ∀ q, env.stop q = false) :
    ∀ (rs : List String) (idx succ fail poll : Nat),
      (runLoop w env sender plain total rs idx succ fail poll).events.filterMap
          eventRecipient = (rs.map strip).filter (fun x => decide (x ≠ "")) ∧
      (runLoop w env sender plain total rs idx succ fail poll).succ +
          (runLoop w env sender plain total rs idx succ fail poll).fail =
        succ + fail + ((rs.map strip).filter (fun x => decide (x ≠ ""))).length := by
  intro rs
  induction rs with
  | nil => intro idx succ fail poll; exact ⟨rfl, rfl⟩
  | cons r rest ih =>
    intro idx succ fail poll
    by_cases hb : strip r = ""
    · rw [runLoop_blank (hstop poll) hb]
      constructor
      · rw [(ih (idx + 1) succ fail (poll + 1)).1]
        simp [hb]
      · rw [(ih (idx + 1) succ fail (poll + 1)).2]
        simp [hb]
    · by_cases hv : is_valid_email (strip r) = true
      · rcases hp : env.provider (buildParams w sender plain (strip r) idx (env.timeAt idx))
          with e | resp
        · rcases paceStep_events_cases w env idx total (poll + 1) with hpe | ⟨sl, hpe⟩ <;>
            · constructor
              · simp [runLoop_send (hstop poll) hb hv, hp, hpe, eventRecipient,
                  sendLogLine, (ih _ _ _ _).1, hb]
              · simp [runLoop_send (hstop poll) hb hv, hp, (ih _ _ _ _).2, hb]
                omega
        · rcases paceStep_events_cases w env idx total (poll + 1) with hpe | ⟨sl, hpe⟩ <;>
            · constructor
              · simp [runLoop_send (hstop poll) hb hv, hp, hpe, eventRecipient,
                  sendLogLine, (ih _ _ _ _).1, hb]
              · simp [runLoop_send (hstop poll) hb hv, hp, (ih _ _ _ _).2, hb]
                omega
      · have hv2 : is_valid_email (strip r) = false := by
          rw [Bool.not_eq_true] at hv
          exact hv
        constructor
        · simp [runLoop_invalid (hstop poll) hb hv2, eventRecipient,
            (ih _ _ _ _).1, hb]
        · simp [runLoop_invalid (hstop poll) hb hv2, (ih _ _ _ _).2, hb]
          omega

lemma filterMap_eventRecipient_log (s : String) (l : List Event) :
    (Event.logMessage s :: l).filterMap eventRecipient = l.filterMap eventRecipient := rfl

lemma filterMap_eventRecipient_length :
    ∀ evs : List Event, (evs.filterMap eventRecipient).length = evs.countP isOutcomeEv := by
  intro evs
  induction evs with
  | nil => rfl
  | cons e rest ih =>
    cases e <;> simp [eventRecipient, isOutcomeEv, List.countP_cons, ih]

/-- C4 (amended): every run that passes validation emits the completed
summary exactly once, as its final event — whether the loop ran to the
end or was broken by cancellation; a run ended by a fatal validation
error emits no completed event at all. -/
theorem run_completed_iff_validated :
    ∀ (w : EmailSenderWorker) (env : Env),
      (∀ m, firstValidationError w = some m →
        (EmailSenderWorker.run w env).1.countP isFinishedAllEv = 0) ∧
      (firstValidationError w = none →
        (EmailSenderWorker.run w env).1.countP isFinishedAllEv = 1 ∧
        ∃ s f, (EmailSenderWorker.run w env).1.getLast? =
          some (Event.finishedAll s f)) := by
  intro w env
  constructor
  · intro m h
    simp [EmailSenderWorker.run, h, List.countP_cons, isFinishedAllEv]
  · intro h
    simp only [EmailSenderWorker.run, h]
    constructor
    · simp [List.countP_cons, List.countP_append, isFinishedAllEv,
        runLoop_countP_finished]
    · exact ⟨_, _, List.getLast?_concat _⟩

theorem run_completed_iff_validated_witness :
    firstValidationError w3 = none ∧
    ((EmailSenderWorker.run w3 env0).1.countP isFinishedAllEv = 1 ∧
      ∃ s f, (EmailSenderWorker.run w3 env0).1.getLast? =
        some (Event.finishedAll s f)) :=
  ⟨by decide, (run_completed_iff_validated w3 env0).2 (by decide)⟩

/-- C4 (counterexample): a run ended by a fatal validation error — here
an empty API key — emits no completed event, refuting "regardless of
how the run ended — including ... runs ended by a fatal validation
error". -/
theorem run_completed_missing_on_fatal :
    EmailSenderWorker.run wBad env0 = ([Event.errorOccurred "API key is empty."], []) ∧
    (EmailSenderWorker.run wBad env0).1.countP isFinishedAllEv = 0 :=
  ⟨by decide, by decide⟩

/-- C8: the payload built for a recipient carries `from` equal to
`"fromName <fromEmail>"` when the from-name is non-empty and the bare
from-email otherwise, a `to` list holding exactly that one recipient,
and a `reply_to` field exactly when the configured reply-to is
non-empty; every payload a run passes to the provider has this shape. -/
theorem message_build_fields :
    (∀ w : EmailSenderWorker, mkSender w =
       if w.from_name ≠ "" then w.from_name ++ " <" ++ w.from_email ++ ">"
       else w.from_email) ∧
    (∀ (w : EmailSenderWorker) (sender plain r : String) (idx tnow : Nat),
       (buildParams w sender plain r idx tnow).sendTo = [r] ∧
       (buildParams w sender plain r idx tnow).sendFrom = sender ∧
       (buildParams w sender plain r idx tnow).reply_to =
         (if w.reply_to ≠ "" then some w.reply_to else none)) ∧
    (∀ (w : EmailSenderWorker) (env : Env) (p : Params),
       p ∈ (EmailSenderWorker.run w env).2 →
       p.sendFrom = mkSender w ∧
       (∃ r, p.sendTo = [r] ∧ is_valid_email r = true) ∧
       (p.reply_to.isSome ↔ w.reply_to ≠ "")) := by
  refine ⟨fun w => rfl, fun w sender plain r idx tnow => ⟨rfl, rfl, rfl⟩, ?_⟩
  intro w env p hp
  rcases h : firstValidationError w with _ | m
  · rw [EmailSenderWorker.run] at hp
    rw [h] at hp
    obtain ⟨r, i, hr, hpe⟩ := runLoop_calls_shape w env (mkSender w)
      (html_to_plain_text w.html_body) w.recipients.length w.recipients 0 0 0 0 p hp
    subst hpe
    refine ⟨rfl, ⟨r, rfl, hr⟩, ?_⟩
    rw [buildParams]
    by_cases hrt : w.reply_to ≠ ""
    · simp [hrt]
    · simp [hrt]
  · rw [EmailSenderWorker.run] at hp
    rw [h] at hp
    simp at hp

theorem message_build_fields_witness :
    (buildParams w8 (mkSender w8) (html_to_plain_text w8.html_body) "a@x.com" 0
        (env0.timeAt 0)) ∈ (EmailSenderWorker.run w8 env0).2 ∧
    ((buildParams w8 (mkSender w8) (html_to_plain_text w8.html_body) "a@x.com" 0
        (env0.timeAt 0)).sendFrom = mkSender w8 ∧
      (∃ r, (buildParams w8 (mkSender w8) (html_to_plain_text w8.html_body) "a@x.com" 0
        (env0.timeAt 0)).sendTo = [r] ∧ is_valid_email r = true) ∧
      ((buildParams w8 (mkSender w8) (html_to_plain_text w8.html_body) "a@x.com" 0
        (env0.timeAt 0)).reply_to.isSome ↔ w8.reply_to ≠ "")) :=
  ⟨by decide, message_build_fields.2.2 w8 env0 _ (by decide)⟩

/-- C10: in a validated, never-cancelled run, the outcome events are in
bijection with the recipients that are non-blank after stripping — one
outcome per such recipient, in order — and the final summary's success
and fail counts sum to their number. -/
theorem run_outcome_invariant :
    ∀ (w : EmailSenderWorker) (env : Env),
      firstValidationError w = none → (∀ q, env.stop q = false) →
      outcomeRecipients (EmailSenderWorker.run w env).1 =
        (w.recipients.map strip).filter (fun x => decide (x ≠ "")) ∧
      (EmailSenderWorker.run w env).1.countP isOutcomeEv =
        ((w.recipients.map strip).filter (fun x => decide (x ≠ ""))).length ∧
      ∃ s f, (EmailSenderWorker.run w env).1.getLast? =
          some (Event.finishedAll s f) ∧
        s + f = ((w.recipients.map strip).filter (fun x => decide (x ≠ ""))).length := by
  intro w env hval hstop
  have hout := runLoop_outcomes_noStop w env (mkSender w)
    (html_to_plain_text w.html_body) w.recipients.length hstop w.recipients 0 0 0 0
  simp only [EmailSenderWorker.run, hval]
  refine ⟨?_, ?_, ?_⟩
  · rw [outcomeRecipients, List.filterMap_append, filterMap_eventRecipient_log,
      hout.1]
    simp [eventRecipient]
  · rw [← filterMap_eventRecipient_length, List.filterMap_append,
      filterMap_eventRecipient_log, hout.1]
    simp [eventRecipient]
  · have h2 := hout.2
    exact ⟨_, _, List.getLast?_concat _, by omega⟩

theorem run_outcome_invariant_witness :
    (firstValidationError w3 = none ∧ (∀ q, env0.stop q = false)) ∧
    (outcomeRecipients (EmailSenderWorker.run w3 env0).1 =
        (w3.recipients.map strip).filter (fun x => decide (x ≠ "")) ∧
      (EmailSenderWorker.run w3 env0).1.countP isOutcomeEv =
        ((w3.recipients.map strip).filter (fun x => decide (x ≠ ""))).length ∧
      ∃ s f, (EmailSenderWorker.run w3 env0).1.getLast? =
          some (Event.finishedAll s f) ∧
        s + f = ((w3.recipients.map strip).filter (fun x => decide (x ≠ ""))).length) :=
  ⟨⟨by decide, fun q => rfl⟩, run_outcome_invariant w3 env0 (by decide) (fun q => rfl)⟩

end BulkEmail
